import Mathlib

/-!
MyAllocator: a shallow embedding of `allocator.c`.

The development follows `src/allocator.c` function by function.

* Addresses and `size_t` values are natural numbers below `2 ^ 64`; every
  pointer or `size_t` addition of the source is reduced modulo `2 ^ 64`.
* Memory is a map from byte addresses to the 8-byte word stored there,
  together with the set of addresses at which a word can be accessed
  (`State.mapped`).  A load or store at an address outside that set is a
  segmentation fault, `Fault.unmapped`.  A store through a pointer that is not
  8-byte aligned is undefined behaviour in C and is reported as
  `Fault.misaligned`.
* A use of a local variable that was never assigned is reported as
  `Fault.uninitialised`, a signed `int` overflow as `Fault.overflow`.
* `mmap` is the operating system: the address it hands back is an input of
  each call (`Env.mmap`), every request is appended to `State.maps`, and a
  granted mapping becomes accessible.
* The target is LP64: pointers, `long`, `size_t` and `intptr_t` are 8 bytes.
* The global `flistarray` and the `node_t` locals live outside the modelled
  memory; of a local only its address is kept (`Env.node`).
-/

namespace MyAllocator

/-! ## Constants and macros (allocator.c, lines 11-21) -/

/-- The minimum size returned by malloc (`MIN_MALLOC_SIZE`). -/
def MIN_MALLOC_SIZE : Nat := 16

/-- The size of a single page of memory, in bytes (`PAGE_SIZE`, 0x1000). -/
def PAGE_SIZE : Nat := 4096

/-- The tag that marks a page header (`MAGIC_NUMBER`, 0xCA75). -/
def MAGIC_NUMBER : Nat := 51829

/-- Number of values of a 64-bit word: `2 ^ 64`. -/
def TWO64 : Nat := 18446744073709551616

/-- Largest value of a C `int`: `2 ^ 31 - 1`. -/
def INT_MAX : Nat := 2147483647

/-- The value `mmap` returns when the mapping is denied: `(void *) -1`. -/
def MAP_FAILED : Nat := 18446744073709551615

/-- Size of a pointer and of a `long` on the LP64 target, in bytes. -/
def WORD : Nat := 8

/-- The macro `ROUND_UP(x,y)`:
`((x) % (y) == 0 ? (x) : (x) + ((y) - (x) % (y)))`, in `size_t` arithmetic. -/
def ROUND_UP (x y : Nat) : Nat :=
  if x % y = 0 then x else (x + (y - x % y)) % TWO64

/-- The ways in which an execution leaves the defined behaviour of C. -/
inductive Fault where
  | overflow
  | uninitialised
  | misaligned
  | unmapped
  | fuel
  deriving DecidableEq, Repr

deriving instance DecidableEq for Except

/-! ## `power_of_two` (allocator.c, lines 51-63) -/

/-- The `while(true)` loop of `power_of_two`: `rounder` is the `int` counter.
Doubling it beyond `INT_MAX` is a signed overflow. -/
def power_of_two_loop : Nat → Nat → Nat → Except Fault Nat
  | 0, _, _ => .error .fuel
  | fuel + 1, size, rounder =>
    if size ≤ rounder then .ok rounder
    else if rounder * 2 > INT_MAX then .error .overflow
    else power_of_two_loop fuel size (rounder * 2)

/-- The function `power_of_two(size)`.  The counter starts at 16 and at most
27 doublings fit in an `int`, so 32 rounds of the loop are never used up
(`power_of_two_loop_fuel`). -/
def power_of_two (size : Nat) : Except Fault Nat :=
  power_of_two_loop 32 size MIN_MALLOC_SIZE

/-- The fixed set of size classes. -/
def size_classes : List Nat := [16, 32, 64, 128, 256, 512, 1024, 2048]

/-! ## Data (allocator.c, lines 23-41) -/

/-- The struct `freelist_t`.  Pointers are addresses; `pages` holds the
address of a `node_t`. -/
structure freelist_t where
  header : Nat
  magic : Nat
  size : Nat
  next : Nat
  end_ : Nat
  pages : Nat
  deriving DecidableEq, Repr

/-- The state the allocator works on: the global `flistarray[8]`, the memory
reached through pointers (one 8-byte word per byte address), the addresses at
which a word can be loaded and stored (`mapped`), and the list of
`(length, result)` pairs of the `mmap` calls made so far, oldest first. -/
structure State where
  flistarray : Fin 8 → freelist_t
  mem : Nat → Nat
  mapped : Nat → Bool
  maps : List (Nat × Nat)

/-- What the surroundings contribute to one call: the address `mmap` returns
if the call maps memory, and the stack address of the `node_t` local whose
address the call stores in a `pages` field. -/
structure Env where
  mmap : Nat
  node : Nat

/-- A zero-initialised `freelist_t`, as every slot of the global array is at
program start. -/
def zero_freelist : freelist_t :=
  { header := 0, magic := 0, size := 0, next := 0, end_ := 0, pages := 0 }

/-- The state at program start, over a given memory of which the addresses in
`mapped` are accessible (the data and the stack of the program). -/
def init (mem : Nat → Nat) (mapped : Nat → Bool) : State :=
  { flistarray := fun _ => zero_freelist, mem := mem, mapped := mapped, maps := [] }

/-- The indices `0 .. 7` in the order the `for` loops visit them. -/
def slots : List (Fin 8) := [0, 1, 2, 3, 4, 5, 6, 7]

/-! ## The operating system and memory -/

/-- The call `mmap(NULL, length, PROT_READ | PROT_WRITE,
MAP_ANONYMOUS | MAP_PRIVATE, -1, 0)`: the answer is `env.mmap`; unless that is
`MAP_FAILED` the new mapping reads as zero and the `length` addresses from
`env.mmap` on (counted modulo `2 ^ 64`) become accessible.  The request is
logged. -/
def mmap (env : Env) (st : State) (length : Nat) : Nat × State :=
  (env.mmap,
   { st with
     mem := if env.mmap = MAP_FAILED then st.mem
            else fun a => if env.mmap ≤ a ∧ a < env.mmap + length then 0 else st.mem a
     mapped := if env.mmap = MAP_FAILED then st.mapped
               else fun a =>
                 decide ((a + (TWO64 - env.mmap % TWO64)) % TWO64 < length) || st.mapped a
     maps := st.maps ++ [(length, env.mmap)] })

/-- A load of one word through a `long *`: a segmentation fault unless the
address is accessible. -/
def load (st : State) (addr : Nat) : Except Fault Nat :=
  if st.mapped addr then .ok (st.mem addr) else .error .unmapped

/-- A store of one word through a `long *` or `void **`: a segmentation fault
unless the address is accessible. -/
def store (st : State) (addr val : Nat) : Except Fault State :=
  if addr % WORD = 0 then
    if st.mapped addr then .ok { st with mem := Function.update st.mem addr val }
    else .error .unmapped
  else .error .misaligned

/-! ## `create_freelist` (allocator.c, lines 152-170) -/

/-- The function `create_freelist(header, size)`.  `header` is a `void *`, so
`header+power_of_two(size)` and `header+PAGE_SIZE` count bytes. -/
def create_freelist (env : Env) (header size : Nat) : Except Fault freelist_t := do
  let c ← power_of_two size
  .ok { header := header
        magic := MAGIC_NUMBER
        size := c
        next := (header + c) % TWO64
        end_ := (header + PAGE_SIZE) % TWO64
        pages := env.node }

/-! ## `xxmalloc` (allocator.c, lines 71-144) -/

/-- How the `for` loop of `xxmalloc` ends: at the first slot `i` whose size
is the requested class, or after all eight slots with `empty_freelist` set to
the last slot of size 0 that was seen (`none`: never assigned). -/
inductive Scan where
  | found (i : Fin 8)
  | fresh (empty_freelist : Option (Fin 8))
  deriving DecidableEq, Repr

/-- The tests of the `for` loop of `xxmalloc` (lines 91-125) over the slots
still to visit. -/
def xxmalloc_scan (flistarray : Fin 8 → freelist_t) (size : Nat) :
    List (Fin 8) → Option (Fin 8) → Scan
  | [], empty_freelist => .fresh empty_freelist
  | i :: rest, empty_freelist =>
    if (flistarray i).size = size then .found i
    else if (flistarray i).size = 0 then xxmalloc_scan flistarray size rest (some i)
    else xxmalloc_scan flistarray size rest empty_freelist

/-- The function `xxmalloc(size)`: the returned pointer and the new state.
`next` is a `void **`, so `next+size` and `next+PAGE_SIZE` advance by
`WORD * size` and `WORD * PAGE_SIZE` bytes. -/
def xxmalloc (env : Env) (st : State) (size : Nat) : Except Fault (Nat × State) :=
  if size > PAGE_SIZE / 2 then
    .ok (mmap env st (ROUND_UP size PAGE_SIZE))
  else do
    let size ← power_of_two size
    match xxmalloc_scan st.flistarray size slots none with
    | .found i =>
      let fl := st.flistarray i
      let p := fl.next
      let fl := { fl with next := (fl.next + WORD * size) % TWO64 }
      if fl.next = fl.end_ then
        let (m, st) := mmap env st PAGE_SIZE
        let fl := { fl with next := m }
        let fl := { fl with end_ := (fl.next + WORD * PAGE_SIZE) % TWO64 }
        let st ← store st fl.header MAGIC_NUMBER
        let st ← store st ((fl.header + WORD) % TWO64) fl.size
        let fl := { fl with pages := env.node }
        .ok (p, { st with flistarray := Function.update st.flistarray i fl })
      else
        .ok (p, { st with flistarray := Function.update st.flistarray i fl })
    | .fresh none => .error .uninitialised
    | .fresh (some empty_freelist) =>
      let (newHeader, st) := mmap env st PAGE_SIZE
      let fl ← create_freelist env newHeader size
      let p := fl.next
      let st ← store st fl.header MAGIC_NUMBER
      let st ← store st ((fl.header + WORD) % TWO64) fl.size
      let fl := { fl with next := (fl.next + WORD * size) % TWO64 }
      .ok (p, { st with flistarray := Function.update st.flistarray empty_freelist fl })

/-! ## `xxmalloc_usable_size` (allocator.c, lines 225-244) -/

/-- The cast `(intptr_t) ptr`: the address read as a signed 64-bit integer. -/
def to_intptr (ptr : Nat) : Int :=
  if ptr < 9223372036854775808 then (ptr : Int) else (ptr : Int) - (TWO64 : Int)

/-- The function `xxmalloc_usable_size(ptr)`: the returned size, and the state,
which it only reads.  `pointer % PAGE_SIZE` is the signed remainder of C.
`*header_ptr` is loaded unconditionally, the word after it only when the tag
matches; both addresses are multiples of 8. -/
def xxmalloc_usable_size (st : State) (ptr : Nat) : Except Fault (Nat × State) :=
  if ptr = 0 then .ok (1, st)
  else
    let pointer : Int := to_intptr ptr
    let header : Int := pointer - Int.tmod pointer (PAGE_SIZE : Int)
    let header_ptr : Nat := (header % (TWO64 : Int)).toNat
    do
      let tag ← load st header_ptr
      if tag = MAGIC_NUMBER then
        let size ← load st ((header_ptr + WORD) % TWO64)
        .ok (size, st)
      else .ok (1, st)

/-! ## `xxfree` (allocator.c, lines 176-218) -/

/-- The `for` loop of `xxfree` (lines 194-199): `j` ends as the last slot
whose size is `size` (`none`: never assigned). -/
def xxfree_scan (flistarray : Fin 8 → freelist_t) (size : Nat) :
    List (Fin 8) → Option (Fin 8) → Option (Fin 8)
  | [], j => j
  | i :: rest, j =>
    if size = (flistarray i).size then xxfree_scan flistarray size rest (some i)
    else xxfree_scan flistarray size rest j

/-- The function `xxfree(ptr)`. -/
def xxfree (env : Env) (st : State) (ptr : Nat) : Except Fault State :=
  if ptr = 0 then .ok st
  else do
    let (size, st) ← xxmalloc_usable_size st ptr
    if size > PAGE_SIZE then .ok st
    else if size = 0 then .ok st
    else
      match xxfree_scan st.flistarray size slots none with
      | none => .error .uninitialised
      | some j =>
        let beginning := (ROUND_UP ptr size + (TWO64 - size)) % TWO64
        let fl := { st.flistarray j with pages := env.node }
        let address := fl.next
        let fl := { fl with next := beginning }
        store { st with flistarray := Function.update st.flistarray j fl } fl.next address

/-! ## Sequences of calls -/

/-- One call of the public interface, with what the surroundings contribute. -/
inductive Call where
  | malloc (env : Env) (size : Nat)
  | free (env : Env) (ptr : Nat)

/-- Runs the calls in order; the pointers returned by the `malloc` calls are
collected, oldest first. -/
def run : State → List Call → Except Fault (List Nat × State)
  | st, [] => .ok ([], st)
  | st, .malloc env size :: rest => do
    let (p, st) ← xxmalloc env st size
    let (ps, st) ← run st rest
    .ok (p :: ps, st)
  | st, .free env ptr :: rest => do
    let st ← xxfree env st ptr
    run st rest

/-! ## Concrete surroundings used in the worked executions -/

/-- A memory in which every word is zero. -/
def zero_mem : Nat → Nat := fun _ => 0

/-- The data of the program at its start: one accessible page at 0x2000
(8192 to 12287), which the allocator did not map; nothing else is
accessible. -/
def data_page : Nat → Bool := fun a => decide (8192 ≤ a) && decide (a < 12288)

/-- Surroundings in which `mmap` answers the page at 0x10000 (65536). -/
def page_env : Env := { mmap := 65536, node := 140737488351232 }

/-- Surroundings in which `mmap` denies the request. -/
def denied_env : Env := { mmap := MAP_FAILED, node := 140737488351232 }

/-- Surroundings in which `mmap` answers the page at 0x20000 (131072). -/
def page2_env : Env := { mmap := 131072, node := 140737488351232 }

/-- The state in which a call of `xxmalloc` returned (the state at program
start over the zero memory if it did not return). -/
def state_of (r : Except Fault (Nat × State)) : State :=
  match r with
  | .ok (_, st) => st
  | .error _ => init zero_mem data_page

/-- The state after `xxmalloc(16)` on the zeroed registry, page at 65536. -/
def class16_state : State := state_of (xxmalloc page_env (init zero_mem data_page) 16)

/-- The registry invariant: every size field that is not 0 is a size class,
and no two slots hold the same non-zero size. -/
def registry_ok (f : Fin 8 → freelist_t) : Prop :=
  (∀ i, (f i).size ≠ 0 → (f i).size ∈ size_classes) ∧
    ∀ i j, (f i).size ≠ 0 → (f i).size = (f j).size → i = j

/-- The states the allocator can be in: the zeroed registry over any memory
with any set of accessible addresses, and every state in which a call of `xxmalloc` with a size of at most 2048 or a
call of `xxfree` has returned, whatever the surroundings contributed. -/
inductive Reachable : State → Prop where
  | start (mem : Nat → Nat) (mapped : Nat → Bool) : Reachable (init mem mapped)
  | malloc (env : Env) (st : State) (n p : Nat) (st2 : State) :
      Reachable st → n ≤ 2048 → xxmalloc env st n = .ok (p, st2) → Reachable st2
  | free (env : Env) (st : State) (ptr : Nat) (st2 : State) :
      Reachable st → xxfree env st ptr = .ok st2 → Reachable st2

/-! ## Facts about `power_of_two` -/

theorem power_of_two_loop_ge (fuel size rounder c : Nat)
    (h : power_of_two_loop fuel size rounder = .ok c) : rounder ≤ c ∧ size ≤ c := by
  induction fuel generalizing rounder with
  | zero => simp [power_of_two_loop] at h
  | succ k ih =>
    unfold power_of_two_loop at h
    split at h
    · cases h; omega
    · split at h
      · cases h
      · have := ih _ h
        omega

theorem power_of_two_loop_mono (fuel n1 n2 rounder c2 : Nat) (hle : n1 ≤ n2)
    (h : power_of_two_loop fuel n2 rounder = .ok c2) :
    ∃ c1, power_of_two_loop fuel n1 rounder = .ok c1 ∧ c1 ≤ c2 := by
  induction fuel generalizing rounder with
  | zero => simp [power_of_two_loop] at h
  | succ k ih =>
    unfold power_of_two_loop at h ⊢
    by_cases h2 : n2 ≤ rounder
    · have h1 : n1 ≤ rounder := le_trans hle h2
      rw [if_pos h2] at h
      rw [if_pos h1]
      cases h
      exact ⟨_, rfl, le_refl _⟩
    · rw [if_neg h2] at h
      by_cases ho : rounder * 2 > INT_MAX
      · rw [if_pos ho] at h
        cases h
      · rw [if_neg ho] at h
        by_cases h1 : n1 ≤ rounder
        · rw [if_pos h1]
          have := power_of_two_loop_ge _ _ _ _ h
          exact ⟨_, rfl, by omega⟩
        · rw [if_neg h1, if_neg ho]
          exact ih _ h

theorem power_of_two_loop_no_fuel (k size rounder : Nat)
    (h : INT_MAX < rounder * 2 ^ (k + 1)) :
    power_of_two_loop (k + 1) size rounder ≠ .error .fuel := by
  induction k generalizing rounder with
  | zero =>
    simp only [power_of_two_loop]
    split_ifs with h1 h2
    · simp
    · simp
    · simp at h h2; omega
  | succ k ih =>
    unfold power_of_two_loop
    split_ifs with h1 h2
    · simp
    · simp
    · apply ih
      have : rounder * 2 ^ (k + 1 + 1) = rounder * 2 * 2 ^ (k + 1) := by ring
      omega

/-- Thirty-two rounds are enough: the loop of `power_of_two` never stops for
lack of fuel, whatever the size. -/
theorem power_of_two_loop_fuel (size : Nat) : power_of_two size ≠ .error .fuel := by
  unfold power_of_two MIN_MALLOC_SIZE
  exact power_of_two_loop_no_fuel 31 size 16 (by decide)

theorem power_of_two_small (n : Nat) (h : n ≤ 2048) :
    power_of_two n = .ok
      (if n ≤ 16 then 16 else if n ≤ 32 then 32 else if n ≤ 64 then 64
       else if n ≤ 128 then 128 else if n ≤ 256 then 256 else if n ≤ 512 then 512
       else if n ≤ 1024 then 1024 else 2048) := by
  unfold power_of_two MIN_MALLOC_SIZE
  by_cases h1 : n ≤ 16
  · simp [power_of_two_loop, h1]
  by_cases h2 : n ≤ 32
  · simp [power_of_two_loop, h1, h2, INT_MAX]
  by_cases h3 : n ≤ 64
  · simp [power_of_two_loop, h1, h2, h3, INT_MAX]
  by_cases h4 : n ≤ 128
  · simp [power_of_two_loop, h1, h2, h3, h4, INT_MAX]
  by_cases h5 : n ≤ 256
  · simp [power_of_two_loop, h1, h2, h3, h4, h5, INT_MAX]
  by_cases h6 : n ≤ 512
  · simp [power_of_two_loop, h1, h2, h3, h4, h5, h6, INT_MAX]
  by_cases h7 : n ≤ 1024
  · simp [power_of_two_loop, h1, h2, h3, h4, h5, h6, h7, INT_MAX]
  · simp [power_of_two_loop, h1, h2, h3, h4, h5, h6, h7, h, INT_MAX]

theorem power_of_two_defined (n : Nat) (h : n ≤ 1073741824) :
    ∃ c, power_of_two n = .ok c := by
  have key : ∀ k fuel rounder, k < fuel → n ≤ rounder * 2 ^ k →
      rounder * 2 ^ k ≤ 1073741824 → ∃ c, power_of_two_loop fuel n rounder = .ok c := by
    intro k
    induction k with
    | zero =>
      intro fuel rounder hf hn _
      obtain ⟨f, rfl⟩ : ∃ f, fuel = f + 1 := ⟨fuel - 1, by omega⟩
      refine ⟨rounder, ?_⟩
      unfold power_of_two_loop
      rw [if_pos (by simpa using hn)]
    | succ k ih =>
      intro fuel rounder hf hn hr
      obtain ⟨f, rfl⟩ : ∃ f, fuel = f + 1 := ⟨fuel - 1, by omega⟩
      unfold power_of_two_loop
      by_cases h1 : n ≤ rounder
      · exact ⟨rounder, by rw [if_pos h1]⟩
      · have e : rounder * 2 ^ (k + 1) = rounder * 2 * 2 ^ k := by ring
        have hpos : 1 ≤ 2 ^ k := Nat.one_le_two_pow
        have hle : rounder * 2 * 1 ≤ rounder * 2 * 2 ^ k := Nat.mul_le_mul_left _ hpos
        have h2 : ¬ rounder * 2 > INT_MAX := by
          unfold INT_MAX
          omega
        rw [if_neg h1, if_neg h2]
        exact ih f (rounder * 2) (by omega) (by omega) (by omega)
  unfold power_of_two MIN_MALLOC_SIZE
  by_cases h16 : n ≤ 16
  · exact key 0 32 16 (by omega) (by omega) (by norm_num)
  · exact key 26 32 16 (by omega) (by norm_num; omega) (by norm_num)

/-- Beyond `2 ^ 30` the doubling of the `int` counter overflows. -/
theorem power_of_two_overflow : power_of_two 1073741825 = .error .overflow := by
  decide

/-! ## The claims -/

/-- C1: for every requested size `n ≤ 2048`, `power_of_two n` returns (the
loop ends with a value) the smallest member of
`{16, 32, 64, 128, 256, 512, 1024, 2048}` that is at least `n`; this is 16 for
every `n ≤ 16`, zero included. -/
theorem power_of_two_smallest_class (n : Nat) (h : n ≤ 2048) :
    ∃ c, power_of_two n = .ok c ∧ c ∈ size_classes ∧ n ≤ c ∧
      ∀ d ∈ size_classes, n ≤ d → c ≤ d := by
  refine ⟨_, power_of_two_small n h, ?_, ?_, ?_⟩
  · simp only [size_classes, List.mem_cons, List.mem_singleton, List.not_mem_nil, or_false]
    split_ifs <;> simp
  · split_ifs <;> omega
  · intro d hd hn
    simp only [size_classes, List.mem_cons, List.mem_singleton, List.not_mem_nil,
      or_false] at hd
    split_ifs <;> omega

theorem power_of_two_smallest_class_witness :
    17 ≤ 2048 ∧ ∃ c, power_of_two 17 = .ok c ∧ c ∈ size_classes ∧ 17 ≤ c ∧
      ∀ d ∈ size_classes, 17 ≤ d → c ≤ d :=
  ⟨by decide, power_of_two_smallest_class 17 (by decide)⟩

/-- The boundary inputs of C1, evaluated: 15, 16, 17, 32, 33, ..., 2048 map to
16, 16, 32, 32, 64, ..., 2048. -/
theorem power_of_two_boundaries :
    [0, 15, 16, 17, 32, 33, 64, 65, 128, 129, 256, 257, 512, 513, 1024, 1025, 2048].map
        power_of_two
      = [16, 16, 16, 32, 32, 64, 64, 128, 128, 256, 256, 512, 512, 1024, 1024, 2048,
          2048].map Except.ok := by
  decide

/-- C2 as stated fails from right to left: `power_of_two 2 ≤ power_of_two 1`
(both are 16) although `2 ≤ 1` is false. -/
theorem power_of_two_not_order_reflecting :
    power_of_two 2 = .ok 16 ∧ power_of_two 1 = .ok 16 ∧
      ¬ ((2 : Nat) ≤ 1 ↔ (16 : Nat) ≤ 16) := by
  decide

/-- C2, amended: for all sizes `n1 ≤ n2 ≤ 2 ^ 30` (those for which the `int`
counter of the loop does not overflow) both calls return and
`power_of_two n1 ≤ power_of_two n2`. -/
theorem power_of_two_monotone (n1 n2 : Nat) (hle : n1 ≤ n2) (h2 : n2 ≤ 1073741824) :
    ∃ c1 c2, power_of_two n1 = .ok c1 ∧ power_of_two n2 = .ok c2 ∧ c1 ≤ c2 := by
  obtain ⟨c2, hc2⟩ := power_of_two_defined n2 h2
  obtain ⟨c1, hc1, hc⟩ := power_of_two_loop_mono 32 n1 n2 MIN_MALLOC_SIZE c2 hle hc2
  exact ⟨c1, c2, hc1, hc2, hc⟩

theorem power_of_two_monotone_witness :
    17 ≤ 1000 ∧ 1000 ≤ 1073741824 ∧
      ∃ c1 c2, power_of_two 17 = .ok c1 ∧ power_of_two 1000 = .ok c2 ∧ c1 ≤ c2 :=
  ⟨by decide, by decide, power_of_two_monotone 17 1000 (by decide) (by decide)⟩

/-- C3, the code at a failing input: from the zeroed registry, `xxmalloc(16)`
returns 65552; `xxfree(65552)` is followed by `xxmalloc(16)`, which returns
65536, and `xxmalloc_usable_size` of that pointer is 1 although
`power_of_two(16)` is 16. -/
theorem round_trip_lost_after_free :
    (run (init zero_mem data_page)
        [.malloc page_env 16, .free page_env 65552, .malloc page_env 16]).map
        (fun r => (r.1, (xxmalloc_usable_size r.2 65536).map (fun q => q.1)))
        = .ok ([65552, 65536], .ok 1) ∧
      power_of_two 16 = .ok 16 := by
  decide

/-- C4, the code at a failing input: from the zeroed registry, `xxmalloc(20)`
returns 65568; after `xxfree(65568)` the next `xxmalloc(20)` returns 65536,
the block before it, not 65568.  One page was requested in all. -/
theorem freed_block_not_reused :
    (run (init zero_mem data_page)
        [.malloc page_env 20, .free page_env 65568, .malloc page_env 20]).map
        (fun r => (r.1, r.2.maps)) = .ok ([65568, 65536], [(4096, 65536)]) := by
  decide

/-- C5, the code at a failing input: two blocks of class 16 are allocated,
then eight times the block allocated last is freed and a block of class 16 is
allocated.  The last allocation returns 65552, the address of the first block,
which was never freed. -/
theorem live_block_handed_out_twice :
    (run (init zero_mem data_page)
        [.malloc page_env 16, .malloc page_env 16,
         .free page_env 65680, .malloc page_env 16,
         .free page_env 65664, .malloc page_env 16,
         .free page_env 65648, .malloc page_env 16,
         .free page_env 65632, .malloc page_env 16,
         .free page_env 65616, .malloc page_env 16,
         .free page_env 65600, .malloc page_env 16,
         .free page_env 65584, .malloc page_env 16,
         .free page_env 65568, .malloc page_env 16]).map (fun r => r.1)
      = .ok [65552, 65680, 65664, 65648, 65632, 65616, 65600, 65584, 65568, 65552] := by
  decide

/-- C6, the code at a failing input: for the foreign pointer 8200, whose page
does not start with the tag, `xxmalloc_usable_size` answers 1, which passes
both guards of `xxfree`; no slot has size 1, so `j` is never assigned and the
call runs into the use of an uninitialised index instead of returning.  The
same happens when the registry already serves class 16. -/
theorem foreign_pointer_not_ignored :
    (xxmalloc_usable_size (init zero_mem data_page) 8200).map (fun q => q.1) = .ok 1 ∧
      xxfree_scan (init zero_mem data_page).flistarray 1 slots none = none ∧
      (xxfree page_env (init zero_mem data_page) 8200).map (fun _ => ())
        = .error .uninitialised ∧
      (run (init zero_mem data_page) [.malloc page_env 16, .free page_env 8200]).map
        (fun r => r.1) = .error .uninitialised := by
  decide

/-- C7: in every state, `xxfree(NULL)` returns with the registry and the
memory unchanged, and `xxmalloc_usable_size(NULL)` returns exactly 1. -/
theorem null_pointer_safety (env : Env) (st : State) :
    xxfree env st 0 = .ok st ∧ xxmalloc_usable_size st 0 = .ok (1, st) := by
  simp [xxfree, xxmalloc_usable_size]

/-- C8 as stated fails where the page of the pointer is not mapped: for the
pointer 8, whose page starts at address 0, and for 83968, the pointer the
second `xxmalloc(2048)` returns, `xxmalloc_usable_size` loads `*header_ptr`
from an unmapped page and faults instead of returning a size. -/
theorem usable_size_faults_on_unmapped_page :
    (xxmalloc_usable_size (init zero_mem data_page) 8).map (fun q => q.1)
        = .error .unmapped ∧
      (run (init zero_mem data_page) [.malloc page_env 2048, .malloc page_env 2048]).map
        (fun r => (r.1, (xxmalloc_usable_size r.2 83968).map (fun q => q.1)))
        = .ok ([67584, 83968], .error .unmapped) := by
  decide

/-- C8, amended: for a non-null pointer with a non-negative address whose page
is mapped (the first two words of the page can be loaded),
`xxmalloc_usable_size` looks at the word at `ptr` rounded down to a multiple
of 4096: if it is the tag 0xCA75 the answer is the following word, otherwise
1; the state comes back as it was. -/
theorem usable_size_reads_page_header (st : State) (ptr : Nat) (h0 : ptr ≠ 0)
    (h : ptr < 9223372036854775808)
    (hm : st.mapped (ptr - ptr % PAGE_SIZE) = true)
    (hm2 : st.mapped (ptr - ptr % PAGE_SIZE + WORD) = true) :
    xxmalloc_usable_size st ptr =
        .ok (if st.mem (ptr - ptr % PAGE_SIZE) = MAGIC_NUMBER
          then st.mem (ptr - ptr % PAGE_SIZE + WORD) else 1, st) ∧
      (ptr - ptr % PAGE_SIZE) % PAGE_SIZE = 0 ∧ ptr - ptr % PAGE_SIZE ≤ ptr ∧
      ptr < ptr - ptr % PAGE_SIZE + PAGE_SIZE := by
  have hmod : ptr % 4096 ≤ ptr := Nat.mod_le _ _
  have hhdr : ((to_intptr ptr - Int.tmod (to_intptr ptr) (PAGE_SIZE : Int))
      % (TWO64 : Int)).toNat = ptr - ptr % 4096 := by
    have e1 : to_intptr ptr = (ptr : Int) := by simp [to_intptr, h]
    have e2 : Int.tmod (ptr : Int) ((4096 : Nat) : Int) = ((ptr % 4096 : Nat) : Int) := rfl
    rw [e1]
    unfold PAGE_SIZE TWO64
    rw [e2]
    omega
  have e3 : (ptr - ptr % 4096 + WORD) % TWO64 = ptr - ptr % 4096 + 8 := by
    unfold WORD TWO64
    omega
  refine ⟨?_, ?_, ?_, ?_⟩
  · unfold xxmalloc_usable_size
    rw [if_neg h0]
    simp only [hhdr, e3]
    simp only [PAGE_SIZE, WORD] at hm hm2 ⊢
    simp only [load, hm, hm2, if_true, bind, Except.bind]
    split_ifs <;> rfl
  · unfold PAGE_SIZE
    omega
  · unfold PAGE_SIZE
    omega
  · unfold PAGE_SIZE
    omega

theorem usable_size_reads_page_header_witness :
    (65552 : Nat) ≠ 0 ∧ 65552 < 9223372036854775808 ∧
      class16_state.mapped (65552 - 65552 % PAGE_SIZE) = true ∧
      class16_state.mapped (65552 - 65552 % PAGE_SIZE + WORD) = true ∧
      (xxmalloc_usable_size class16_state 65552 =
        .ok (if class16_state.mem (65552 - 65552 % PAGE_SIZE) = MAGIC_NUMBER
          then class16_state.mem (65552 - 65552 % PAGE_SIZE + WORD) else 1,
          class16_state) ∧
      (65552 - 65552 % PAGE_SIZE) % PAGE_SIZE = 0 ∧ 65552 - 65552 % PAGE_SIZE ≤ 65552 ∧
      65552 < 65552 - 65552 % PAGE_SIZE + PAGE_SIZE) :=
  ⟨by decide, by decide, by decide, by decide,
    usable_size_reads_page_header class16_state 65552 (by decide) (by decide) (by decide)
      (by decide)⟩

/-- C9 as stated fails for the largest sizes: for `n = 2 ^ 64 - 1` the sum in
`ROUND_UP` wraps around and the one mapping request has length 0, which is
not at least `n`. -/
theorem large_object_length_wraps :
    ROUND_UP 18446744073709551615 PAGE_SIZE = 0 ∧
      (xxmalloc denied_env (init zero_mem data_page) 18446744073709551615).map
        (fun r => (r.1, r.2.maps)) = .ok (MAP_FAILED, [(0, MAP_FAILED)]) ∧
      ¬ (18446744073709551615 ≤ 0) := by
  decide

theorem ROUND_UP_page (n : Nat) (h : n ≤ TWO64 - PAGE_SIZE) :
    ROUND_UP n PAGE_SIZE = (n + 4095) / 4096 * 4096 := by
  unfold ROUND_UP
  unfold TWO64 PAGE_SIZE at *
  split_ifs with h0
  · omega
  · omega

/-- C9, amended: for every size `n` with `2048 < n ≤ 2 ^ 64 - 4096`,
`xxmalloc n` makes exactly one mapping request, of length `len`, the smallest
multiple of 4096 that is at least `n`; it returns the address `mmap` answered
unchanged; the memory is as `mmap` left it (the new mapping reads as zero, no
header is stored) and all 8 registry entries are unchanged. -/
theorem large_object_path (env : Env) (st : State) (n : Nat) (h1 : 2048 < n)
    (h2 : n ≤ TWO64 - PAGE_SIZE) :
    ∃ len, len % PAGE_SIZE = 0 ∧ n ≤ len ∧ len < n + PAGE_SIZE ∧
      xxmalloc env st n = .ok (env.mmap,
        { flistarray := st.flistarray
          mem := if env.mmap = MAP_FAILED then st.mem
                 else fun a => if env.mmap ≤ a ∧ a < env.mmap + len then 0 else st.mem a
          mapped := (mmap env st len).2.mapped
          maps := st.maps ++ [(len, env.mmap)] }) := by
  refine ⟨(n + 4095) / 4096 * 4096, ?_, ?_, ?_, ?_⟩
  · unfold PAGE_SIZE
    omega
  · omega
  · unfold PAGE_SIZE
    omega
  · unfold xxmalloc
    have hbig : n > PAGE_SIZE / 2 := by
      unfold PAGE_SIZE
      omega
    rw [if_pos hbig, ROUND_UP_page n h2]
    rfl

theorem large_object_path_witness :
    2048 < 3000 ∧ 3000 ≤ TWO64 - PAGE_SIZE ∧
      ∃ len, len % PAGE_SIZE = 0 ∧ 3000 ≤ len ∧ len < 3000 + PAGE_SIZE ∧
        xxmalloc page_env (init zero_mem data_page) 3000 = .ok (page_env.mmap,
          { flistarray := (init zero_mem data_page).flistarray
            mem := if page_env.mmap = MAP_FAILED then (init zero_mem data_page).mem
                   else fun a => if page_env.mmap ≤ a ∧ a < page_env.mmap + len then 0
                     else (init zero_mem data_page).mem a
            mapped := (mmap page_env (init zero_mem data_page) len).2.mapped
            maps := (init zero_mem data_page).maps ++ [(len, page_env.mmap)] }) :=
  ⟨by decide, by decide,
    large_object_path page_env (init zero_mem data_page) 3000 (by decide) (by decide)⟩

/-- C10, the code at a failing input: after the first `xxmalloc(2048)` on the
zeroed registry (page at 65536) the entry has `next = 83968`, beyond
`end = 69632`; the second `xxmalloc(2048)` returns 83968, outside the only page
that was mapped, `[65536, 69632)`. -/
theorem cursor_leaves_page :
    (run (init zero_mem data_page) [.malloc page_env 2048]).map
        (fun r => (r.1, (r.2.flistarray 7).size, (r.2.flistarray 7).header,
          (r.2.flistarray 7).next, (r.2.flistarray 7).end_))
        = .ok ([67584], 2048, 65536, 83968, 69632) ∧
      ¬ (83968 ≤ 69632) ∧
      (run (init zero_mem data_page) [.malloc page_env 2048, .malloc page_env 2048]).map
        (fun r => (r.1, r.2.maps)) = .ok ([67584, 83968], [(4096, 65536)]) := by
  decide

/-- C11, the code at a failing input: after `xxmalloc(64)` on the zeroed
registry the page at 65536 starts with the tag 51829 and the size 64; after
`xxfree` of the returned pointer 65600, the first block of the page, the first
word of the page is 66112, the previous cursor, and no longer the tag. -/
theorem page_header_overwritten_by_free :
    (run (init zero_mem data_page) [.malloc page_env 64]).map
        (fun r => (r.1, r.2.mem 65536, r.2.mem 65544)) = .ok ([65600], 51829, 64) ∧
      (run (init zero_mem data_page) [.malloc page_env 64, .free page_env 65600]).map
        (fun r => (r.1, r.2.mem 65536, r.2.mem 65544)) = .ok ([65600], 66112, 64) ∧
      (66112 : Nat) ≠ MAGIC_NUMBER := by
  decide

/-- C12, the code at a failing input: with the mapping denied, `xxmalloc(16)`
on the zeroed registry stores the tag through the failure value
`(void *) -1` instead of returning; the large-object path does return the
failure value; on the page-exhaustion path the call returns the block 65536
although its mapping request was denied. -/
theorem denied_mapping_not_propagated :
    (xxmalloc denied_env (init zero_mem data_page) 16).map (fun r => r.1) = .error .misaligned ∧
      (xxmalloc denied_env (init zero_mem data_page) 3000).map (fun r => r.1) = .ok MAP_FAILED ∧
      (run (init zero_mem data_page)
        [.malloc page_env 512, .free page_env 66048, .malloc denied_env 512]).map
        (fun r => (r.1, r.2.maps))
        = .ok ([66048, 65536], [(4096, 65536), (4096, MAP_FAILED)]) := by
  decide

/-! ## Facts about the slot scans -/

theorem xxmalloc_scan_skip (f : Fin 8 → freelist_t) (c : Nat) (l l2 : List (Fin 8))
    (acc : Option (Fin 8)) (hno : ∀ i ∈ l, (f i).size ≠ c) :
    ∃ acc2, xxmalloc_scan f c (l ++ l2) acc = xxmalloc_scan f c l2 acc2 := by
  induction l generalizing acc with
  | nil => exact ⟨acc, rfl⟩
  | cons i rest ih =>
    have hi : (f i).size ≠ c := hno i (List.mem_cons_self _ _)
    have hrest : ∀ k ∈ rest, (f k).size ≠ c := fun k hk => hno k (List.mem_cons_of_mem _ hk)
    simp only [List.cons_append, xxmalloc_scan, if_neg hi]
    split_ifs
    · exact ih _ hrest
    · exact ih _ hrest

theorem xxmalloc_scan_full (f : Fin 8 → freelist_t) (c : Nat) (l : List (Fin 8))
    (acc : Option (Fin 8)) (hno : ∀ i ∈ l, (f i).size ≠ c)
    (hfull : ∀ i ∈ l, (f i).size ≠ 0) :
    xxmalloc_scan f c l acc = .fresh acc := by
  induction l generalizing acc with
  | nil => rfl
  | cons i rest ih =>
    have hi : (f i).size ≠ c := hno i (List.mem_cons_self _ _)
    have hz : (f i).size ≠ 0 := hfull i (List.mem_cons_self _ _)
    simp only [xxmalloc_scan, if_neg hi, if_neg hz]
    exact ih _ (fun k hk => hno k (List.mem_cons_of_mem _ hk))
      (fun k hk => hfull k (List.mem_cons_of_mem _ hk))

theorem xxmalloc_scan_fresh (f : Fin 8 → freelist_t) (c : Nat) (l : List (Fin 8))
    (acc r : Option (Fin 8)) (h : xxmalloc_scan f c l acc = .fresh r) :
    (∀ i ∈ l, (f i).size ≠ c) ∧
      ((r = acc ∧ ∀ i ∈ l, (f i).size ≠ 0) ∨ ∃ e ∈ l, r = some e ∧ (f e).size = 0) := by
  induction l generalizing acc with
  | nil =>
    simp only [xxmalloc_scan, Scan.fresh.injEq] at h
    exact ⟨by simp, Or.inl ⟨h.symm, by simp⟩⟩
  | cons i rest ih =>
    simp only [xxmalloc_scan] at h
    by_cases hi : (f i).size = c
    · rw [if_pos hi] at h
      cases h
    · rw [if_neg hi] at h
      by_cases hz : (f i).size = 0
      · rw [if_pos hz] at h
        obtain ⟨h1, h2⟩ := ih _ h
        refine ⟨?_, Or.inr ?_⟩
        · intro k hk
          rcases List.mem_cons.mp hk with rfl | hk
          · exact hi
          · exact h1 k hk
        · rcases h2 with ⟨hr, _⟩ | ⟨e, he, hr, hez⟩
          · exact ⟨i, List.mem_cons_self _ _, hr, hz⟩
          · exact ⟨e, List.mem_cons_of_mem _ he, hr, hez⟩
      · rw [if_neg hz] at h
        obtain ⟨h1, h2⟩ := ih _ h
        refine ⟨?_, ?_⟩
        · intro k hk
          rcases List.mem_cons.mp hk with rfl | hk
          · exact hi
          · exact h1 k hk
        · rcases h2 with ⟨hr, hall⟩ | ⟨e, he, hr, hez⟩
          · refine Or.inl ⟨hr, ?_⟩
            intro k hk
            rcases List.mem_cons.mp hk with rfl | hk
            · exact hz
            · exact hall k hk
          · exact Or.inr ⟨e, List.mem_cons_of_mem _ he, hr, hez⟩

theorem slots_split (i : Fin 8) :
    slots = slots.filter (fun k => k < i) ++ i :: slots.filter (fun k => i < k) := by
  fin_cases i <;> rfl

theorem xxmalloc_scan_last_empty (f : Fin 8 → freelist_t) (c : Nat) (e : Fin 8)
    (hno : ∀ i, (f i).size ≠ c) (he : (f e).size = 0)
    (hlast : ∀ i, e < i → (f i).size ≠ 0) :
    xxmalloc_scan f c slots none = .fresh (some e) := by
  rw [slots_split e]
  obtain ⟨acc2, h⟩ := xxmalloc_scan_skip f c (slots.filter (fun k => k < e))
    (e :: slots.filter (fun k => e < k)) none (fun k _ => hno k)
  rw [h]
  simp only [xxmalloc_scan, if_neg (hno e), if_pos he]
  exact xxmalloc_scan_full f c _ _ (fun k _ => hno k)
    (fun k hk => hlast k (by simpa using (List.mem_filter.mp hk).2))

theorem power_of_two_mem_classes (n c : Nat) (hn : n ≤ 2048) (hc : power_of_two n = .ok c) :
    c ∈ size_classes := by
  rw [power_of_two_small n hn] at hc
  cases hc
  simp only [size_classes, List.mem_cons, List.mem_singleton, List.not_mem_nil, or_false]
  split_ifs <;> simp

theorem power_of_two_class (c : Nat) (hc : c ∈ size_classes) : power_of_two c = .ok c := by
  simp only [size_classes, List.mem_cons, List.mem_singleton, List.not_mem_nil, or_false] at hc
  rcases hc with rfl | rfl | rfl | rfl | rfl | rfl | rfl | rfl <;> decide

theorem mmap_eq (env : Env) (st : State) (length : Nat) :
    mmap env st length = (env.mmap,
      { flistarray := st.flistarray
        mem := (mmap env st length).2.mem
        mapped := (mmap env st length).2.mapped
        maps := st.maps ++ [(length, env.mmap)] }) :=
  rfl

theorem mmap_mapped (env : Env) (st : State) (a : Nat) (ha : env.mmap % 8 = 0)
    (hin : (a + (TWO64 - env.mmap % TWO64)) % TWO64 < PAGE_SIZE) :
    (mmap env st PAGE_SIZE).2.mapped a = true := by
  have hne : env.mmap ≠ MAP_FAILED := by
    unfold MAP_FAILED
    omega
  simp [mmap, hne, hin]

/-- The new-class branch: no slot serves the class, `empty_freelist` is `e`
and the address `mmap` answered is 8-byte aligned. -/
theorem xxmalloc_new_class (env : Env) (st : State) (n c : Nat) (e : Fin 8) (hn : n ≤ 2048)
    (hc : power_of_two n = .ok c)
    (hs : xxmalloc_scan st.flistarray c slots none = .fresh (some e))
    (ha : env.mmap % 8 = 0) :
    xxmalloc env st n = .ok ((env.mmap + c) % TWO64,
      { flistarray := Function.update st.flistarray e
          { header := env.mmap, magic := MAGIC_NUMBER, size := c,
            next := ((env.mmap + c) % TWO64 + WORD * c) % TWO64,
            end_ := (env.mmap + PAGE_SIZE) % TWO64, pages := env.node }
        mem := Function.update (Function.update (mmap env st PAGE_SIZE).2.mem
          env.mmap MAGIC_NUMBER) ((env.mmap + WORD) % TWO64) c
        mapped := (mmap env st PAGE_SIZE).2.mapped
        maps := st.maps ++ [(PAGE_SIZE, env.mmap)] }) := by
  have hsmall : ¬ n > PAGE_SIZE / 2 := by
    unfold PAGE_SIZE
    omega
  have hcc : power_of_two c = .ok c := power_of_two_class c (power_of_two_mem_classes n c hn hc)
  have ha2 : (env.mmap + 8) % TWO64 % 8 = 0 := by
    unfold TWO64
    omega
  have hm1 : (mmap env st PAGE_SIZE).2.mapped env.mmap = true :=
    mmap_mapped env st _ ha (by unfold TWO64 PAGE_SIZE; omega)
  have hm2 : (mmap env st PAGE_SIZE).2.mapped ((env.mmap + 8) % TWO64) = true :=
    mmap_mapped env st _ ha (by unfold TWO64 PAGE_SIZE; omega)
  unfold xxmalloc
  rw [if_neg hsmall, hc]
  simp only [bind, Except.bind, hs]
  rw [mmap_eq]
  simp only [create_freelist, hcc, store, WORD, ha, ha2, hm1, hm2, if_true, bind, Except.bind]

/-! ## Consecutive allocations of one class -/

theorem class_ge (c : Nat) (hc : c ∈ size_classes) : 16 ≤ c := by
  simp only [size_classes, List.mem_cons, List.mem_singleton, List.not_mem_nil, or_false] at hc
  omega

/-- C14, the code at a failing input: two blocks of class 16 are allocated at
65552 and 65680.  `xxfree(65680)`, a pointer that is exactly the start of its
block, makes 65664 the new `next`, one block below `65680 - 65680 % 16`; for
the interior pointer 65681 the pushed block is 65680, as the claim says. -/
theorem free_of_block_start_pushes_previous_block :
    (run (init zero_mem data_page) [.malloc page_env 16, .malloc page_env 16, .free page_env 65680]).map
        (fun r => (r.1, (r.2.flistarray 7).next)) = .ok ([65552, 65680], 65664) ∧
      65680 - 65680 % 16 = 65680 ∧
      (run (init zero_mem data_page) [.malloc page_env 16, .malloc page_env 16, .free page_env 65681]).map
        (fun r => (r.1, (r.2.flistarray 7).next)) = .ok ([65552, 65680], 65680) ∧
      65681 - 65681 % 16 = 65680 := by
  decide

/-- C15, the code at a failing input: three blocks of class 16 are allocated
(65552, 65680, 65808); `xxfree(65680)` pushes 65664 and `xxfree(65808)` pushes
65792, whose first word then holds the link 65664.  The next `xxmalloc(16)`
returns 65792 but leaves `next = 65920`, not the stored link, and the
following `xxmalloc(16)` returns 65920, not 65664. -/
theorem pop_ignores_stored_link :
    (run (init zero_mem data_page)
        [.malloc page_env 16, .malloc page_env 16, .malloc page_env 16,
         .free page_env 65680, .free page_env 65808]).map
        (fun r => (r.1, (r.2.flistarray 7).next, r.2.mem 65792))
        = .ok ([65552, 65680, 65808], 65792, 65664) ∧
      (run (init zero_mem data_page)
        [.malloc page_env 16, .malloc page_env 16, .malloc page_env 16,
         .free page_env 65680, .free page_env 65808, .malloc page_env 16]).map
        (fun r => (r.1, (r.2.flistarray 7).next, r.2.mem 65792))
        = .ok ([65552, 65680, 65808, 65792], 65920, 65664) ∧
      (run (init zero_mem data_page)
        [.malloc page_env 16, .malloc page_env 16, .malloc page_env 16,
         .free page_env 65680, .free page_env 65808, .malloc page_env 16,
         .malloc page_env 16]).map (fun r => r.1)
        = .ok [65552, 65680, 65808, 65792, 65920] := by
  decide

/-- C16, the code at a failing input: `xxmalloc(512)` returns 66048 and
`xxfree(66048)` pushes the page start 65536; the next `xxmalloc(512)` finds the
advanced cursor equal to `end` and maps one new page of 4096 bytes, at 131072.
On return the first two words of the new page are 0 (the tag and the size went
to the old page at 65536), the cursor is the start of the new page and `end`
is 163840, the new page plus 32768. -/
theorem exhaustion_leaves_new_page_without_header :
    (run (init zero_mem data_page)
        [.malloc page_env 512, .free page_env 66048, .malloc page2_env 512]).map
        (fun r => (r.1, r.2.maps)) = .ok ([66048, 65536], [(4096, 65536), (4096, 131072)]) ∧
      (run (init zero_mem data_page)
        [.malloc page_env 512, .free page_env 66048, .malloc page2_env 512]).map
        (fun r => (r.2.mem 131072, r.2.mem 131080, r.2.mem 65536, r.2.mem 65544))
        = .ok (0, 0, 51829, 512) ∧
      (run (init zero_mem data_page)
        [.malloc page_env 512, .free page_env 66048, .malloc page2_env 512]).map
        (fun r => ((r.2.flistarray 7).header, (r.2.flistarray 7).next,
          (r.2.flistarray 7).end_)) = .ok (65536, 131072, 163840) ∧
      (131072 : Nat) + 4096 ≠ 163840 := by
  decide

/-- C17, the code at a failing input: three consecutive `xxmalloc(16)` on the
zeroed registry return 65552, 65680 and 65808, and the cursor ends at 65936:
each bump moves the cursor by 128 bytes, not by 16. -/
theorem bump_step_is_eight_blocks :
    (run (init zero_mem data_page)
        [.malloc page_env 16, .malloc page_env 16, .malloc page_env 16]).map
        (fun r => (r.1, (r.2.flistarray 7).next)) = .ok ([65552, 65680, 65808], 65936) ∧
      (65680 : Nat) - 65552 = 128 ∧ (65808 : Nat) - 65680 = 128 := by
  decide

/-! ## `xxfree` on a recognised pointer -/

theorem usable_size_state (st : State) (ptr sz : Nat) (st2 : State)
    (h : xxmalloc_usable_size st ptr = .ok (sz, st2)) : st2 = st := by
  unfold xxmalloc_usable_size at h
  split_ifs at h with h0
  · cases h
    rfl
  · simp only [load, bind, Except.bind] at h
    repeat (any_goals (first | cases h | split at h))
    all_goals rfl

/-- C19 as stated fails on the zeroed registry: after `xxmalloc(16)` slot 0,
the first empty slot, still has size 0 and the new entry is in slot 7; a
second class then goes to slot 6. -/
theorem new_class_not_in_first_empty_slot :
    (run (init zero_mem data_page) [.malloc page_env 16]).map
        (fun r => ((r.2.flistarray 0).size, (r.2.flistarray 7).size)) = .ok (0, 16) ∧
      (run (init zero_mem data_page) [.malloc page_env 16, .malloc page2_env 32]).map
        (fun r => ((r.2.flistarray 0).size, (r.2.flistarray 6).size, (r.2.flistarray 7).size))
        = .ok (0, 32, 16) := by
  decide

/-- C19, amended: for every `n ≤ 2048` whose size class `c` is in no slot of
the registry, `xxmalloc n`, granted an aligned mapping, stores the new entry
in the last empty slot `e`, the highest-indexed slot of `flistarray` whose
size is 0, and leaves every other slot unchanged. -/
theorem new_class_takes_last_empty_slot (env : Env) (st : State) (n c : Nat) (e : Fin 8)
    (hn : n ≤ 2048) (hc : power_of_two n = .ok c)
    (hno : ∀ i, (st.flistarray i).size ≠ c) (he : (st.flistarray e).size = 0)
    (hlast : ∀ i, e < i → (st.flistarray i).size ≠ 0) (ha : env.mmap % 8 = 0) :
    ∃ p st2, xxmalloc env st n = .ok (p, st2) ∧
      (st2.flistarray e).size = c ∧ (st2.flistarray e).header = env.mmap ∧
      ∀ i, i ≠ e → st2.flistarray i = st.flistarray i := by
  have hs := xxmalloc_scan_last_empty st.flistarray c e hno he hlast
  refine ⟨_, _, xxmalloc_new_class env st n c e hn hc hs ha, ?_, ?_, ?_⟩
  · simp
  · simp
  · intro i hi
    simp [Function.update_noteq hi]

theorem new_class_takes_last_empty_slot_witness :
    16 ≤ 2048 ∧ power_of_two 16 = .ok 16 ∧
      (∀ i, ((init zero_mem data_page).flistarray i).size ≠ 16) ∧
      ((init zero_mem data_page).flistarray 7).size = 0 ∧
      (∀ i, 7 < i → ((init zero_mem data_page).flistarray i).size ≠ 0) ∧ page_env.mmap % 8 = 0 ∧
      ∃ p st2, xxmalloc page_env (init zero_mem data_page) 16 = .ok (p, st2) ∧
        (st2.flistarray 7).size = 16 ∧ (st2.flistarray 7).header = page_env.mmap ∧
        ∀ i, i ≠ 7 → st2.flistarray i = (init zero_mem data_page).flistarray i :=
  ⟨by decide, by decide, by decide, by decide, by decide, by decide,
    new_class_takes_last_empty_slot page_env (init zero_mem data_page) 16 16 7 (by decide) (by decide)
      (by decide) (by decide) (by decide) (by decide)⟩

/-! ## The registry invariant -/

theorem mem_slots (i : Fin 8) : i ∈ slots := by
  fin_cases i <;> simp [slots]

theorem xxfree_sizes (env : Env) (st : State) (ptr : Nat) (st2 : State)
    (h : xxfree env st ptr = .ok st2) (i : Fin 8) :
    (st2.flistarray i).size = (st.flistarray i).size := by
  unfold xxfree at h
  split_ifs at h with h0
  · cases h
    rfl
  · simp only [bind, Except.bind] at h
    split at h
    · cases h
    · rename_i q hq
      obtain ⟨sz, st1⟩ := q
      have hst := usable_size_state st ptr sz st1 hq
      subst hst
      simp only at h
      split_ifs at h with h1 h2
      · cases h
        rfl
      · cases h
        rfl
      · split at h
        · cases h
        · rename_i j _
          unfold store at h
          split_ifs at h
          cases h
          by_cases hi : i = j
          · subst hi
            simp
          · simp [Function.update_noteq hi]

theorem store_frame (st : State) (a v : Nat) (st2 : State) (h : store st a v = .ok st2) :
    st2.flistarray = st.flistarray := by
  unfold store at h
  split_ifs at h
  cases h
  rfl

theorem xxmalloc_sizes (env : Env) (st : State) (n p : Nat) (st2 : State) (hn : n ≤ 2048)
    (h : xxmalloc env st n = .ok (p, st2)) :
    (∀ i, (st2.flistarray i).size = (st.flistarray i).size) ∨
      ∃ c e, c ∈ size_classes ∧ (∀ i, (st.flistarray i).size ≠ c) ∧
        (st2.flistarray e).size = c ∧
        ∀ i, i ≠ e → (st2.flistarray i).size = (st.flistarray i).size := by
  have hsmall : ¬ n > PAGE_SIZE / 2 := by
    unfold PAGE_SIZE
    omega
  have hc := power_of_two_small n hn
  generalize hcv : (if n ≤ 16 then 16 else if n ≤ 32 then 32 else if n ≤ 64 then 64
       else if n ≤ 128 then 128 else if n ≤ 256 then 256 else if n ≤ 512 then 512
       else if n ≤ 1024 then 1024 else 2048) = c at hc
  have hcl : c ∈ size_classes := power_of_two_mem_classes n c hn hc
  have hcc : power_of_two c = .ok c := power_of_two_class c hcl
  unfold xxmalloc at h
  rw [if_neg hsmall, hc] at h
  simp only [bind, Except.bind] at h
  split at h
  · rename_i i hs
    left
    intro k
    split_ifs at h with hex
    · rw [mmap_eq] at h
      simp only at h
      split at h
      · cases h
      · rename_i st3 hs3
        split at h
        · cases h
        · rename_i st4 hs4
          cases h
          have f3 := store_frame _ _ _ _ hs3
          have f4 := store_frame _ _ _ _ hs4
          simp only [f4, f3]
          by_cases hk : k = i
          · subst hk
            simp
          · simp [Function.update_noteq hk]
    · cases h
      by_cases hk : k = i
      · subst hk
        simp
      · simp [Function.update_noteq hk]
  · cases h
  · rename_i e hs
    right
    have hsc := (xxmalloc_scan_fresh st.flistarray c slots none (some e) hs).1
    rw [mmap_eq] at h
    simp only [create_freelist, hcc, bind, Except.bind] at h
    split at h
    · cases h
    · rename_i st3 hs3
      split at h
      · cases h
      · rename_i st4 hs4
        cases h
        have f3 := store_frame _ _ _ _ hs3
        have f4 := store_frame _ _ _ _ hs4
        refine ⟨c, e, hcl, fun k => hsc k (mem_slots k), ?_, ?_⟩
        · simp
        · intro k hk
          simp only [f4, f3]
          simp [Function.update_noteq hk]

theorem registry_ok_reachable (st : State) (hr : Reachable st) : registry_ok st.flistarray := by
  induction hr with
  | start mem mapped =>
    constructor
    · intro i hi
      exact absurd rfl hi
    · intro i j hi _
      exact absurd rfl hi
  | malloc env st n p st2 _ hn hcall ih =>
    obtain ⟨ih1, ih2⟩ := ih
    rcases xxmalloc_sizes env st n p st2 hn hcall with hsame | ⟨c, e, hcl, hno, hec, hrest⟩
    · constructor
      · intro i hi
        rw [hsame i] at hi ⊢
        exact ih1 i hi
      · intro i j hi hij
        rw [hsame i] at hi
        rw [hsame i, hsame j] at hij
        exact ih2 i j hi hij
    · have hge := class_ge c hcl
      constructor
      · intro i hi
        by_cases hie : i = e
        · subst hie
          rw [hec]
          exact hcl
        · rw [hrest i hie] at hi ⊢
          exact ih1 i hi
      · intro i j hi hij
        by_cases hie : i = e
        · by_cases hje : j = e
          · rw [hie, hje]
          · subst hie
            rw [hec, hrest j hje] at hij
            exact absurd hij.symm (hno j)
        · by_cases hje : j = e
          · subst hje
            rw [hec, hrest i hie] at hij
            exact absurd hij (hno i)
          · rw [hrest i hie] at hi
            rw [hrest i hie, hrest j hje] at hij
            exact ih2 i j hi hij
  | free env st ptr st2 _ hcall ih =>
    obtain ⟨ih1, ih2⟩ := ih
    have hsame := xxfree_sizes env st ptr st2 hcall
    constructor
    · intro i hi
      rw [hsame i] at hi ⊢
      exact ih1 i hi
    · intro i j hi hij
      rw [hsame i] at hi
      rw [hsame i, hsame j] at hij
      exact ih2 i j hi hij

theorem registry_has_empty_slot (f : Fin 8 → freelist_t) (c : Nat) (hok : registry_ok f)
    (hc : c ∈ size_classes) (hno : ∀ i, (f i).size ≠ c) : ∃ e, (f e).size = 0 := by
  by_contra hne
  push_neg at hne
  obtain ⟨h1, h2⟩ := hok
  have hinj : Function.Injective (fun i => (f i).size) := fun i j hij => h2 i j (hne i) hij
  have hcard : (Finset.univ.image (fun i => (f i).size)).card = 8 := by
    rw [Finset.card_image_of_injective _ hinj]
    rfl
  have hsub : Finset.univ.image (fun i => (f i).size) ⊆ size_classes.toFinset.erase c := by
    intro x hx
    obtain ⟨i, _, rfl⟩ := Finset.mem_image.mp hx
    exact Finset.mem_erase.mpr ⟨hno i, List.mem_toFinset.mpr (h1 i (hne i))⟩
  have hle := Finset.card_le_card hsub
  rw [hcard, Finset.card_erase_of_mem (List.mem_toFinset.mpr hc)] at hle
  have h8 : size_classes.toFinset.card = 8 := by decide
  omega

/-- C20: in every reachable state the non-zero size fields of the 8 slots are
pairwise distinct members of `{16, ..., 2048}`; hence whenever the loop of
`xxmalloc` finds no slot of the requested class, `empty_freelist` has been
assigned and is a slot of size 0. -/
theorem registry_never_overflows (st : State) (hr : Reachable st) :
    (∀ i, (st.flistarray i).size ≠ 0 → (st.flistarray i).size ∈ size_classes) ∧
      (∀ i j, (st.flistarray i).size ≠ 0 →
        (st.flistarray i).size = (st.flistarray j).size → i = j) ∧
      ∀ n c r, n ≤ 2048 → power_of_two n = .ok c →
        xxmalloc_scan st.flistarray c slots none = .fresh r →
        ∃ e, r = some e ∧ (st.flistarray e).size = 0 := by
  have hok := registry_ok_reachable st hr
  refine ⟨hok.1, hok.2, ?_⟩
  intro n c r hn hc hs
  obtain ⟨hno, hr2⟩ := xxmalloc_scan_fresh st.flistarray c slots none r hs
  rcases hr2 with ⟨_, hfull⟩ | ⟨e, _, hre, hez⟩
  · obtain ⟨e, he⟩ := registry_has_empty_slot st.flistarray c hok
      (power_of_two_mem_classes n c hn hc) (fun i => hno i (mem_slots i))
    exact absurd he (hfull e (mem_slots e))
  · exact ⟨e, hre, hez⟩

theorem class16_state_reachable : Reachable class16_state :=
  Reachable.malloc page_env (init zero_mem data_page) 16 65552 class16_state
    (Reachable.start zero_mem data_page) (by decide) rfl

theorem registry_never_overflows_witness :
    Reachable class16_state ∧
      ((∀ i, (class16_state.flistarray i).size ≠ 0 →
          (class16_state.flistarray i).size ∈ size_classes) ∧
        (∀ i j, (class16_state.flistarray i).size ≠ 0 →
          (class16_state.flistarray i).size = (class16_state.flistarray j).size → i = j) ∧
        ∀ n c r, n ≤ 2048 → power_of_two n = .ok c →
          xxmalloc_scan class16_state.flistarray c slots none = .fresh r →
          ∃ e, r = some e ∧ (class16_state.flistarray e).size = 0) :=
  ⟨class16_state_reachable, registry_never_overflows class16_state class16_state_reachable⟩

end MyAllocator
